import Mathlib

/-!
Verification of the js-node-express-server bootstrap layer.

The development embeds the repository's source shallowly:

* src/encryptData.ts and src/decryptData.ts (the envelope codec),
* src/index.ts (the App class: constructor, init, decoder stage, dynamic
  router, response wrapper, error translation chain, terminal error handler,
  shutdown),
* src/constants.ts (environment tags).

External collaborators that the repository only calls (the crypto-js AES
primitive, the runtime JSON serializer, the js-node-errors error classes)
are modelled at their boundary as the specification describes them in its
external-interface section: the serializer is an injective deterministic
text form with a partial inverse, and the cipher is an opaque
encrypt/decrypt pair that fails on a wrong key or corrupt input.
-/

/-- Character strings of the JavaScript runtime, modelled as lists of characters. -/
abbrev Str := List Char

/-- Structured (JSON-serializable) runtime values: the payloads handled by the
envelope codec and the request/response bodies. Numbers are modelled as
integers. -/
inductive Json where
  | null : Json
  | bool (b : Bool) : Json
  | num (n : Int) : Json
  | str (s : Str) : Json
  | arr (elems : List Json) : Json
  | obj (fields : List (Str × Json)) : Json

/-- JavaScript truthiness of a structured value: null, false, 0 and the empty
string are falsy; arrays and objects are always truthy. -/
def Json.truthy : Json → Bool
  | .null => false
  | .bool b => b
  | .num n => n != 0
  | .str s => !s.isEmpty
  | .arr _ => true
  | .obj _ => true

/-- Truthiness of an optional structured value (absent means undefined, falsy). -/
def optTruthy (o : Option Json) : Bool :=
  match o with
  | none => false
  | some j => j.truthy

/-- Truthiness of an optional string (absent or empty is falsy). -/
def strTruthy (o : Option Str) : Bool :=
  match o with
  | none => false
  | some s => !s.isEmpty

/-- Property access on a structured value, as the JavaScript member access on a
parsed object: the first binding of the key, or undefined (none). -/
def Json.getField (j : Json) (key : Str) : Option Json :=
  match j with
  | .obj fields => (fields.find? (fun kv => kv.1 = key)).map (·.2)
  | _ => none

/-- The escape character of the deterministic text form used to model the
external serializer. -/
def escC : Char := Char.ofNat 92

/-- The string delimiter of the deterministic text form. -/
def quoteC : Char := Char.ofNat 34

/-- Escapes one character of string content. -/
def escChar (c : Char) : Str :=
  if c = escC ∨ c = quoteC then [escC, c] else [c]

/-- Escaped body of a string literal of the deterministic text form. -/
def escBody : Str → Str
  | [] => []
  | c :: cs => escChar c ++ escBody cs

/-- Full string literal of the deterministic text form. -/
def strEnc (s : Str) : Str := quoteC :: (escBody s ++ [quoteC])

/-- Reads an escaped string body up to its closing delimiter; returns the
decoded content and the remaining input. -/
def pStrBody : Str → Option (Str × Str)
  | [] => none
  | c :: cs =>
    if c = escC then
      match cs with
      | [] => none
      | d :: ds => (pStrBody ds).map (fun r => (d :: r.1, r.2))
    else if c = quoteC then some ([], cs)
    else (pStrBody cs).map (fun r => (c :: r.1, r.2))

theorem pStrBody_cons (c : Char) (cs : Str) :
    pStrBody (c :: cs) =
      if c = escC then
        match cs with
        | [] => none
        | d :: ds => (pStrBody ds).map (fun r => (d :: r.1, r.2))
      else if c = quoteC then some ([], cs)
      else (pStrBody cs).map (fun r => (c :: r.1, r.2)) := by
  rw [pStrBody.eq_def]; rfl

theorem pStrBody_escBody (s rest : Str) :
    pStrBody (escBody s ++ (quoteC :: rest)) = some (s, rest) := by
  induction s with
  | nil =>
      show pStrBody (quoteC :: rest) = some ([], rest)
      rw [pStrBody_cons, if_neg (by decide), if_pos rfl]
  | cons c cs ih =>
      by_cases hc : c = escC ∨ c = quoteC
      · show pStrBody (escChar c ++ escBody cs ++ (quoteC :: rest)) = _
        rw [escChar, if_pos hc]
        simp [pStrBody, ih]
      · push_neg at hc
        show pStrBody (escChar c ++ escBody cs ++ (quoteC :: rest)) = _
        rw [escChar, if_neg (by tauto)]
        show pStrBody (c :: (escBody cs ++ (quoteC :: rest))) = _
        rw [pStrBody_cons, if_neg hc.1, if_neg hc.2, ih]
        rfl

/-- Digit character of one decimal digit. -/
def digitC (d : Nat) : Char := Char.ofNat (48 + d)

/-- Numeric value of a digit character. -/
def digitVal (c : Char) : Nat := c.toNat - 48

/-- Tests whether a character is a decimal digit. -/
def isDigitC (c : Char) : Bool := 48 ≤ c.toNat && c.toNat ≤ 57

theorem digitVal_digitC : ∀ d, d < 10 → digitVal (digitC d) = d := by decide

theorem isDigitC_digitC : ∀ d, d < 10 → isDigitC (digitC d) = true := by decide

/-- Decimal digit string of a natural number in the deterministic text form
(least-significant digit first). -/
def natEnc (n : Nat) : Str := (Nat.digits 10 n).map digitC

/-- Reads a run of decimal digits and returns its value with the rest. -/
def pNat (s : Str) : Nat × Str :=
  (Nat.ofDigits 10 ((s.takeWhile isDigitC).map digitVal), s.dropWhile isDigitC)

theorem takeWhile_append_stop (p : Char → Bool) (xs : Str) (c : Char) (rest : Str)
    (hxs : ∀ x ∈ xs, p x = true) (hc : p c = false) :
    (xs ++ c :: rest).takeWhile p = xs ∧ (xs ++ c :: rest).dropWhile p = c :: rest := by
  induction xs with
  | nil => simp [List.takeWhile_cons, List.dropWhile_cons, hc]
  | cons x xs ih =>
      have hx : p x = true := hxs x (by simp)
      have ih' := ih (fun y hy => hxs y (by simp [hy]))
      simp [List.takeWhile_cons, List.dropWhile_cons, hx, ih'.1, ih'.2]

theorem pNat_natEnc (n : Nat) (c : Char) (rest : Str) (hc : isDigitC c = false) :
    pNat (natEnc n ++ c :: rest) = (n, c :: rest) := by
  have hall : ∀ x ∈ natEnc n, isDigitC x = true := by
    intro x hx
    obtain ⟨d, hd, rfl⟩ := List.mem_map.1 hx
    exact isDigitC_digitC d (Nat.digits_lt_base (by norm_num) hd)
  obtain ⟨h1, h2⟩ := takeWhile_append_stop isDigitC (natEnc n) c rest hall hc
  unfold pNat
  rw [h1, h2, natEnc, List.map_map]
  have hmap : (Nat.digits 10 n).map (digitVal ∘ digitC) = Nat.digits 10 n := by
    have : (Nat.digits 10 n).map (digitVal ∘ digitC) = (Nat.digits 10 n).map id :=
      List.map_congr_left fun d hd =>
        digitVal_digitC d (Nat.digits_lt_base (by norm_num) hd)
    rw [this, List.map_id]
  rw [hmap, Nat.ofDigits_digits]

/-- Signed decimal coding of an integer in the deterministic text form. -/
def intEnc (n : Int) : Str :=
  (if n < 0 then ['-'] else ['+']) ++ natEnc n.natAbs

/-- Reads a signed decimal integer. -/
def pInt : Str → Option (Int × Str)
  | [] => none
  | c :: cs =>
    if c = '-' then some (-((pNat cs).1 : Int), (pNat cs).2)
    else if c = '+' then some (((pNat cs).1 : Int), (pNat cs).2)
    else none

theorem pInt_cons (c : Char) (cs : Str) :
    pInt (c :: cs) =
      if c = '-' then some (-((pNat cs).1 : Int), (pNat cs).2)
      else if c = '+' then some (((pNat cs).1 : Int), (pNat cs).2)
      else none := by
  rw [pInt.eq_def]

theorem pInt_intEnc (n : Int) (c : Char) (rest : Str) (hc : isDigitC c = false) :
    pInt (intEnc n ++ c :: rest) = some (n, c :: rest) := by
  by_cases hn : n < 0
  · have he : intEnc n ++ c :: rest = '-' :: (natEnc n.natAbs ++ c :: rest) := by
      rw [intEnc, if_pos hn]; rfl
    rw [he, pInt_cons, if_pos rfl, pNat_natEnc _ _ _ hc]
    exact congrArg some (Prod.ext (by omega) rfl)
  · have he : intEnc n ++ c :: rest = '+' :: (natEnc n.natAbs ++ c :: rest) := by
      rw [intEnc, if_neg hn]; rfl
    rw [he, pInt_cons, if_neg (by decide), if_pos rfl, pNat_natEnc _ _ _ hc]
    exact congrArg some (Prod.ext (by omega) rfl)

mutual

/-- Deterministic text form of a structured value: the model of the external
serializer used by the envelope codec (its exact concrete syntax is opaque at
the boundary; what matters is that it is deterministic and invertible). -/
def Json.enc : Json → Str
  | .null => ['n']
  | .bool true => ['t']
  | .bool false => ['f']
  | .num n => 'i' :: (intEnc n ++ [';'])
  | .str s => strEnc s
  | .arr elems => '[' :: (encList elems ++ [']'])
  | .obj fields => '<' :: (encObj fields ++ ['>'])

/-- Text form of a sequence of array elements. -/
def encList : List Json → Str
  | [] => []
  | j :: js => Json.enc j ++ encList js

/-- Text form of a sequence of object entries. -/
def encObj : List (Str × Json) → Str
  | [] => []
  | kv :: kvs => strEnc kv.1 ++ (Json.enc kv.2 ++ encObj kvs)

end

mutual

/-- Reads one structured value from the text form (fuel-indexed recursion). -/
def pJson : Nat → Str → Option (Json × Str)
  | _, [] => none
  | fuel, c :: cs =>
    if c = 'n' then some (.null, cs)
    else if c = 't' then some (.bool true, cs)
    else if c = 'f' then some (.bool false, cs)
    else if c = 'i' then
      match pInt cs with
      | some (n, s) =>
        match s with
        | d :: ds => if d = ';' then some (.num n, ds) else none
        | [] => none
      | none => none
    else if c = quoteC then (pStrBody cs).map (fun r => (Json.str r.1, r.2))
    else if c = '[' then
      match fuel with
      | 0 => none
      | fuel' + 1 => (pList fuel' cs).map (fun r => (Json.arr r.1, r.2))
    else if c = '<' then
      match fuel with
      | 0 => none
      | fuel' + 1 => (pObj fuel' cs).map (fun r => (Json.obj r.1, r.2))
    else none

/-- Reads array elements up to the closing bracket. -/
def pList : Nat → Str → Option (List Json × Str)
  | _, [] => none
  | fuel, c :: cs =>
    if c = ']' then some ([], cs)
    else
      match fuel with
      | 0 => none
      | fuel' + 1 =>
        match pJson fuel' (c :: cs) with
        | some (j, s1) =>
          match pList fuel' s1 with
          | some (js, s2) => some (j :: js, s2)
          | none => none
        | none => none

/-- Reads object entries up to the closing bracket. -/
def pObj : Nat → Str → Option (List (Str × Json) × Str)
  | _, [] => none
  | fuel, c :: cs =>
    if c = '>' then some ([], cs)
    else if c = quoteC then
      match fuel with
      | 0 => none
      | fuel' + 1 =>
        match pStrBody cs with
        | some (k, s1) =>
          match pJson fuel' s1 with
          | some (v, s2) =>
            match pObj fuel' s2 with
            | some (kvs, s3) => some ((k, v) :: kvs, s3)
            | none => none
          | none => none
        | none => none
    else none

end

/-- The model of the runtime JSON parser: total reading of the text form,
failing when the input is not a complete serialized value. -/
def Json.parse (s : Str) : Option Json :=
  match pJson s.length s with
  | some (j, []) => some j
  | _ => none

theorem enc_cons (j : Json) : ∃ c cs, Json.enc j = c :: cs ∧ c ≠ ']' ∧ c ≠ '>' := by
  cases j with
  | null => exact ⟨'n', [], rfl, by decide, by decide⟩
  | bool b =>
      cases b with
      | true => exact ⟨'t', [], rfl, by decide, by decide⟩
      | false => exact ⟨'f', [], rfl, by decide, by decide⟩
  | num n => exact ⟨'i', _, rfl, by decide, by decide⟩
  | str s => exact ⟨quoteC, _, rfl, by decide, by decide⟩
  | arr elems => exact ⟨'[', _, rfl, by decide, by decide⟩
  | obj fields => exact ⟨'<', _, rfl, by decide, by decide⟩

theorem enc_length_pos (j : Json) : 1 ≤ (Json.enc j).length := by
  obtain ⟨c, cs, he, -, -⟩ := enc_cons j
  rw [he]
  simp

theorem pJson_cons (fuel : Nat) (c : Char) (cs : Str) :
    pJson fuel (c :: cs) =
      if c = 'n' then some (.null, cs)
      else if c = 't' then some (.bool true, cs)
      else if c = 'f' then some (.bool false, cs)
      else if c = 'i' then
        match pInt cs with
        | some (n, s) =>
          match s with
          | d :: ds => if d = ';' then some (.num n, ds) else none
          | [] => none
        | none => none
      else if c = quoteC then (pStrBody cs).map (fun r => (Json.str r.1, r.2))
      else if c = '[' then
        match fuel with
        | 0 => none
        | fuel' + 1 => (pList fuel' cs).map (fun r => (Json.arr r.1, r.2))
      else if c = '<' then
        match fuel with
        | 0 => none
        | fuel' + 1 => (pObj fuel' cs).map (fun r => (Json.obj r.1, r.2))
      else none := by
  cases fuel <;> rfl

theorem pJson_succ (fuel : Nat) (c : Char) (cs : Str) :
    pJson (fuel + 1) (c :: cs) =
      if c = 'n' then some (.null, cs)
      else if c = 't' then some (.bool true, cs)
      else if c = 'f' then some (.bool false, cs)
      else if c = 'i' then
        match pInt cs with
        | some (n, s) =>
          match s with
          | d :: ds => if d = ';' then some (.num n, ds) else none
          | [] => none
        | none => none
      else if c = quoteC then (pStrBody cs).map (fun r => (Json.str r.1, r.2))
      else if c = '[' then (pList fuel cs).map (fun r => (Json.arr r.1, r.2))
      else if c = '<' then (pObj fuel cs).map (fun r => (Json.obj r.1, r.2))
      else none := rfl

theorem pList_succ (fuel : Nat) (c : Char) (cs : Str) :
    pList (fuel + 1) (c :: cs) =
      if c = ']' then some ([], cs)
      else
        match pJson fuel (c :: cs) with
        | some (j, s1) =>
          match pList fuel s1 with
          | some (js, s2) => some (j :: js, s2)
          | none => none
        | none => none := rfl

theorem pObj_succ (fuel : Nat) (c : Char) (cs : Str) :
    pObj (fuel + 1) (c :: cs) =
      if c = '>' then some ([], cs)
      else if c = quoteC then
        match pStrBody cs with
        | some (k, s1) =>
          match pJson fuel s1 with
          | some (v, s2) =>
            match pObj fuel s2 with
            | some (kvs, s3) => some ((k, v) :: kvs, s3)
            | none => none
          | none => none
        | none => none
      else none := rfl

mutual

theorem pJson_enc (j : Json) (fuel : Nat) (rest : Str)
    (h : (Json.enc j).length ≤ fuel) :
    pJson fuel (Json.enc j ++ rest) = some (j, rest) := by
  cases j with
  | null => rw [show Json.enc .null ++ rest = 'n' :: rest from rfl, pJson_cons, if_pos rfl]
  | bool b =>
      cases b with
      | true =>
          rw [show Json.enc (.bool true) ++ rest = 't' :: rest from rfl, pJson_cons,
            if_neg (by decide), if_pos rfl]
      | false =>
          rw [show Json.enc (.bool false) ++ rest = 'f' :: rest from rfl, pJson_cons,
            if_neg (by decide), if_neg (by decide), if_pos rfl]
  | num n =>
      have he : Json.enc (.num n) ++ rest = 'i' :: (intEnc n ++ ';' :: rest) := by
        simp [Json.enc]
      rw [he, pJson_cons, if_neg (by decide), if_neg (by decide), if_neg (by decide),
        if_pos rfl, pInt_intEnc n ';' rest (by decide)]
      rfl
  | str s =>
      have he : Json.enc (.str s) ++ rest = quoteC :: (escBody s ++ quoteC :: rest) := by
        simp [Json.enc, strEnc]
      rw [he, pJson_cons, if_neg (by decide), if_neg (by decide), if_neg (by decide),
        if_neg (by decide), if_pos rfl, pStrBody_escBody]
      rfl
  | arr elems =>
      have he : Json.enc (.arr elems) ++ rest = '[' :: (encList elems ++ ']' :: rest) := by
        simp [Json.enc]
      have hlen : (Json.enc (.arr elems)).length = (encList elems).length + 2 := by
        simp [Json.enc]
      obtain ⟨fuel', rfl⟩ : ∃ f, fuel = f + 1 := ⟨fuel - 1, by omega⟩
      rw [he, pJson_succ, if_neg (by decide), if_neg (by decide), if_neg (by decide),
        if_neg (by decide), if_neg (by decide), if_pos rfl,
        pList_enc elems fuel' rest (by omega)]
      rfl
  | obj fields =>
      have he : Json.enc (.obj fields) ++ rest = '<' :: (encObj fields ++ '>' :: rest) := by
        simp [Json.enc]
      have hlen : (Json.enc (.obj fields)).length = (encObj fields).length + 2 := by
        simp [Json.enc]
      obtain ⟨fuel', rfl⟩ : ∃ f, fuel = f + 1 := ⟨fuel - 1, by omega⟩
      rw [he, pJson_succ, if_neg (by decide), if_neg (by decide), if_neg (by decide),
        if_neg (by decide), if_neg (by decide), if_neg (by decide), if_pos rfl,
        pObj_enc fields fuel' rest (by omega)]
      rfl

theorem pList_enc (xs : List Json) (fuel : Nat) (rest : Str)
    (h : (encList xs).length < fuel) :
    pList fuel (encList xs ++ (']' :: rest)) = some (xs, rest) := by
  cases xs with
  | nil =>
      rw [show encList [] ++ (']' :: rest) = ']' :: rest from rfl]
      obtain ⟨fuel', rfl⟩ : ∃ f, fuel = f + 1 := ⟨fuel - 1, by omega⟩
      rw [pList_succ, if_pos rfl]
  | cons x xs' =>
      obtain ⟨c, cs, hx, hc1, hc2⟩ := enc_cons x
      have he : encList (x :: xs') ++ (']' :: rest)
          = c :: (cs ++ (encList xs' ++ (']' :: rest))) := by
        rw [encList, hx]
        simp
      have hlen : (encList (x :: xs')).length
          = (Json.enc x).length + (encList xs').length := by
        rw [encList]
        simp
      obtain ⟨fuel', rfl⟩ : ∃ f, fuel = f + 1 := ⟨fuel - 1, by omega⟩
      have hback : c :: (cs ++ (encList xs' ++ (']' :: rest)))
          = Json.enc x ++ (encList xs' ++ (']' :: rest)) := by
        rw [hx]
        simp
      have hpos := enc_length_pos x
      have hJ : pJson fuel' (Json.enc x ++ (encList xs' ++ (']' :: rest)))
          = some (x, encList xs' ++ (']' :: rest)) :=
        pJson_enc x fuel' (encList xs' ++ (']' :: rest)) (by omega)
      have hL : pList fuel' (encList xs' ++ (']' :: rest)) = some (xs', rest) :=
        pList_enc xs' fuel' rest (by omega)
      rw [he, pList_succ, if_neg hc1, hback]
      simp only [hJ, hL]

theorem pObj_enc (kvs : List (Str × Json)) (fuel : Nat) (rest : Str)
    (h : (encObj kvs).length < fuel) :
    pObj fuel (encObj kvs ++ ('>' :: rest)) = some (kvs, rest) := by
  cases kvs with
  | nil =>
      rw [show encObj [] ++ ('>' :: rest) = '>' :: rest from rfl]
      obtain ⟨fuel', rfl⟩ : ∃ f, fuel = f + 1 := ⟨fuel - 1, by omega⟩
      rw [pObj_succ, if_pos rfl]
  | cons kv kvs' =>
      have he : encObj (kv :: kvs') ++ ('>' :: rest)
          = quoteC :: (escBody kv.1 ++ quoteC ::
              (Json.enc kv.2 ++ (encObj kvs' ++ ('>' :: rest)))) := by
        rw [encObj, strEnc]
        simp
      have hlen : (encObj (kv :: kvs')).length
          = (escBody kv.1).length + 2 + (Json.enc kv.2).length + (encObj kvs').length := by
        rw [encObj, strEnc]
        simp
        omega
      obtain ⟨fuel', rfl⟩ : ∃ f, fuel = f + 1 := ⟨fuel - 1, by omega⟩
      have hpos := enc_length_pos kv.2
      have hS : pStrBody (escBody kv.1 ++ quoteC ::
            (Json.enc kv.2 ++ (encObj kvs' ++ ('>' :: rest))))
          = some (kv.1, Json.enc kv.2 ++ (encObj kvs' ++ ('>' :: rest))) :=
        pStrBody_escBody kv.1 _
      have hJ : pJson fuel' (Json.enc kv.2 ++ (encObj kvs' ++ ('>' :: rest)))
          = some (kv.2, encObj kvs' ++ ('>' :: rest)) :=
        pJson_enc kv.2 fuel' (encObj kvs' ++ ('>' :: rest)) (by omega)
      have hO : pObj fuel' (encObj kvs' ++ ('>' :: rest)) = some (kvs', rest) :=
        pObj_enc kvs' fuel' rest (by omega)
      rw [he, pObj_succ, if_neg (by decide), if_pos rfl]
      simp only [hS, hJ, hO]

end

theorem Json.parse_enc (j : Json) : Json.parse (Json.enc j) = some j := by
  unfold Json.parse
  have h : pJson (Json.enc j).length (Json.enc j ++ []) = some (j, []) :=
    pJson_enc j (Json.enc j).length [] le_rfl
  rw [List.append_nil] at h
  rw [h]

/-- Model of the external crypto-js AES primitive at its specified boundary:
an ideal symmetric cipher. Encryption tags the plaintext with the escaped key;
decryption succeeds exactly when the same key is presented. -/
def aesEncrypt (plain key : Str) : Str := escBody key ++ quoteC :: plain

/-- Decryption of the modelled cipher: strips the key tag when it matches and
fails (none, modelling the thrown error) otherwise — wrong key or corrupt
input, as the specification assumes of the external primitive. -/
def aesDecrypt (cipher key : Str) : Option Str :=
  if cipher.take (escBody key ++ [quoteC]).length = escBody key ++ [quoteC]
  then some (cipher.drop (escBody key ++ [quoteC]).length)
  else none

theorem aesDecrypt_aesEncrypt (p k : Str) : aesDecrypt (aesEncrypt p k) k = some p := by
  unfold aesDecrypt aesEncrypt
  have he : escBody k ++ quoteC :: p = (escBody k ++ [quoteC]) ++ p := by simp
  rw [he, List.take_left, if_pos rfl, List.drop_left]

theorem aesDecrypt_wrong_key (p k k' : Str) (hk : k' ≠ k) :
    aesDecrypt (aesEncrypt p k) k' = none := by
  have h1 : pStrBody (aesEncrypt p k) = some (k, p) := pStrBody_escBody k p
  unfold aesDecrypt
  by_cases hcond :
      (aesEncrypt p k).take (escBody k' ++ [quoteC]).length = escBody k' ++ [quoteC]
  · exfalso
    have hsplit := List.take_append_drop (escBody k' ++ [quoteC]).length (aesEncrypt p k)
    rw [hcond] at hsplit
    have h2 : pStrBody (aesEncrypt p k)
        = some (k', (aesEncrypt p k).drop (escBody k' ++ [quoteC]).length) := by
      rw [← hsplit]
      have := pStrBody_escBody k' ((aesEncrypt p k).drop (escBody k' ++ [quoteC]).length)
      simpa [List.append_assoc] using this
    rw [h1] at h2
    exact hk (Prod.mk.injEq .. ▸ (Option.some.inj h2.symm)).1
  · rw [if_neg hcond]

/-- Result of the decryptData function: a parsed structure, the raw decrypted
text when it does not parse, or the null sentinel on decryption failure. -/
inductive DecResult where
  | json (parsedData : Json)
  | raw (decryptedData : Str)
  | nullSentinel

/-- Embedding of encryptData (src/src/encryptData.ts): serialize the payload to
the deterministic text form, then encrypt it under the provided key. -/
def encryptData (data : Json) (encryptionKey : Str) : Str :=
  aesEncrypt (Json.enc data) encryptionKey

/-- Embedding of decryptData (src/decryptData.ts): AES-decrypt the input, parse
the decrypted text and return the parsed structure; on a parse failure return
the raw decrypted text; a decryption failure is caught and yields the null
sentinel instead of an exception. -/
def decryptData (encryptedData encryptionKey : Str) : DecResult :=
  match aesDecrypt encryptedData encryptionKey with
  | some decrypted =>
    match Json.parse decrypted with
    | some parsed => .json parsed
    | none => .raw decrypted
  | none => .nullSentinel

theorem decryptData_of_decrypt_failure (c k : Str) (h : aesDecrypt c k = none) :
    decryptData c k = DecResult.nullSentinel := by
  unfold decryptData
  rw [h]

/-- C1: for every JSON-serializable payload P and every key K, decrypting the
result of encrypting P under K with the same key K yields a value structurally
equal to P. -/
theorem decryptData_encryptData_roundtrip (P : Json) (K : Str) :
    decryptData (encryptData P K) K = DecResult.json P := by
  unfold decryptData encryptData
  rw [aesDecrypt_aesEncrypt]
  simp only [Json.parse_enc]

/-- C2: whenever decryption itself fails (wrong key or corrupt input), the
total function decryptData returns the null sentinel rather than raising; in
particular a payload encrypted under K and decrypted under K2 with K2 distinct
from K yields the null sentinel. -/
theorem decryptData_failure_null_sentinel :
    (∀ c k : Str, aesDecrypt c k = none → decryptData c k = DecResult.nullSentinel) ∧
    (∀ (P : Json) (K K2 : Str), K2 ≠ K →
      decryptData (encryptData P K) K2 = DecResult.nullSentinel) := by
  refine ⟨decryptData_of_decrypt_failure, fun P K K2 hk => ?_⟩
  exact decryptData_of_decrypt_failure _ _ (aesDecrypt_wrong_key (Json.enc P) K K2 hk)

/-- Witness for C2: a concrete payload encrypted under one key and decrypted
under a different key comes back as the null sentinel. -/
theorem decryptData_failure_null_sentinel_witness :
    decryptData (encryptData (Json.str ['a']) ['k']) ['m'] = DecResult.nullSentinel :=
  decryptData_failure_null_sentinel.2 (Json.str ['a']) ['k'] ['m'] (by decide)

/-- Embedding of the Config interface (src/src/index.ts). Fields whose value is
an opaque collaborator (router, logger settings, cors options, the custom body
parser hook) are modelled by their presence, which is all the App code
inspects. -/
structure Config where
  openapiBaseSchema : Option Str := none
  openapiSpec : Option Json := none
  env : Str := []
  ignoredAccessLogPaths : Str := []
  shouldCheckOpenApiBaseSchema : Option Bool := none
  requestPayloadLimit : Option Str := none
  corsOptions : Option Unit := none
  encryptionKey : Option Str := none
  customBodyParser : Option Unit := none

/-- The environment tags of src/src/constants.ts (GLOBAL / ENVIRONMENT_MODE_TYPE). -/
def ENV_DEV : Str := "development".toList

/-- The test environment tag (GLOBAL.ENV_TEST). -/
def ENV_TEST : Str := "test".toList

/-- One-time pipeline stages registered on the express app (app.use/app.get),
named after the source methods that register them. -/
inductive Stage where
  | cors
  | urlencoded
  | jsonBody
  | cookies
  | customBody
  | logging
  | helmet
  | frameguard
  | healthCheck
  | readyCheck
  | rootRoute
  | decoder
  | dynamicRouterRef
  | modifyResponseBody
  | callerRouter
  | notFoundHandler
  | openApiErrorTranslation
  | errorConverter
  | errorHandler
deriving DecidableEq

/-- Middleware installed on a dynamic-router version. -/
inductive DynStage where
  | swaggerUI
  | openApiValidation
deriving DecidableEq

/-- Observable state of an App instance: the readiness flag, the ordered list
of middleware registered on the express app, and the current dynamic-router
version (none before the first build). -/
structure AppState where
  readyState : Bool
  appStages : List Stage
  dynamicRouter : Option (List DynStage)

/-- Middleware registered by the App constructor, in order: cors, then either
the default body decoders or the custom hook. -/
def constructorStages (cfg : Config) : List Stage :=
  [Stage.cors] ++
    (match cfg.customBodyParser with
     | none => [Stage.urlencoded, Stage.jsonBody, Stage.cookies]
     | some _ => [Stage.customBody])

/-- The configuration-error message thrown by the App constructor. -/
def configErrMsg : Str :=
  "Error in app configuration either openapiBaseSchema or openapiSpec have to be provided.".toList

/-- Embedding of the App constructor (src/src/index.ts): validates the schema
source configuration — failing fast when neither source is truthy and the
check has not been explicitly disabled — then registers the constructor-time
middleware with the readiness flag created false. -/
def App.construct (cfg : Config) : Except Str AppState :=
  let shouldCheck :=
    if cfg.shouldCheckOpenApiBaseSchema = some false then false else true
  if shouldCheck && !strTruthy cfg.openapiBaseSchema && !optTruthy cfg.openapiSpec then
    .error configErrMsg
  else
    .ok { readyState := false, appStages := constructorStages cfg, dynamicRouter := none }

/-- Embedding of reloadDynamicRouter (src/src/index.ts): builds a fresh router
version — docs UI and schema validation when a schema source is truthy — and
swaps it in. -/
def reloadDynamicRouter (cfg : Config) (openApiSpec : Option Json) (s : AppState) : AppState :=
  let version : List DynStage :=
    if optTruthy openApiSpec || strTruthy cfg.openapiBaseSchema
    then [DynStage.swaggerUI, DynStage.openApiValidation]
    else []
  { s with dynamicRouter := some version }

/-- The stages appended to the express app by one call of init(), in source
order: logging, security headers, health endpoints, body decoder, the
dynamic-router dispatch shim, the response-body wrapper, caller routes, the 404
fallback, the error translation chain and the terminal error handler. -/
def initStageList : List Stage :=
  [Stage.logging, Stage.helmet, Stage.frameguard, Stage.healthCheck, Stage.readyCheck,
   Stage.rootRoute, Stage.decoder, Stage.dynamicRouterRef, Stage.modifyResponseBody,
   Stage.callerRouter, Stage.notFoundHandler, Stage.openApiErrorTranslation,
   Stage.errorConverter, Stage.errorHandler]

/-- Embedding of init() (src/src/index.ts): registers every stage in source
order, rebuilds the dynamic router, additionally registers the schema
validation on the dynamic router when a schema source is present, and finally
flips the readiness flag to true. -/
def App.init (cfg : Config) (s : AppState) : AppState :=
  let s1 : AppState :=
    { s with appStages := s.appStages ++
        [Stage.logging, Stage.helmet, Stage.frameguard, Stage.healthCheck,
         Stage.readyCheck, Stage.rootRoute, Stage.decoder] }
  let s2 := reloadDynamicRouter cfg cfg.openapiSpec s1
  let s3 : AppState := { s2 with appStages := s2.appStages ++ [Stage.dynamicRouterRef] }
  let s4 : AppState :=
    if optTruthy cfg.openapiSpec || strTruthy cfg.openapiBaseSchema then
      { s3 with dynamicRouter :=
          s3.dynamicRouter.map (fun r => r ++ [DynStage.openApiValidation]) }
    else s3
  { s4 with
    appStages := s4.appStages ++
      [Stage.modifyResponseBody, Stage.callerRouter, Stage.notFoundHandler,
       Stage.openApiErrorTranslation, Stage.errorConverter, Stage.errorHandler],
    readyState := true }

/-- Embedding of shutdown() (src/src/index.ts): clears the readiness flag. -/
def App.shutdown (s : AppState) : AppState :=
  { s with readyState := false }

/-- Public operations of an App instance after construction. -/
inductive Op where
  | init
  | shutdown
  | reload (openApiSpec : Option Json)

/-- One public operation applied to the instance state. -/
def applyOp (cfg : Config) (s : AppState) : Op → AppState
  | .init => App.init cfg s
  | .shutdown => App.shutdown s
  | .reload spec => reloadDynamicRouter cfg spec s

/-- A sequence of public operations applied to the instance state. -/
def applyOps (cfg : Config) (s : AppState) : List Op → AppState
  | [] => s
  | op :: ops => applyOps cfg (applyOp cfg s op) ops

theorem readyState_stable_no_init (cfg : Config) :
    ∀ (ops : List Op) (s : AppState), Op.init ∉ ops → s.readyState = false →
      (applyOps cfg s ops).readyState = false := by
  intro ops
  induction ops with
  | nil => intro s _ hs; exact hs
  | cons op ops ih =>
      intro s hno hs
      have hop : op ≠ Op.init := fun h => hno (h ▸ List.mem_cons_self op ops)
      have hno' : Op.init ∉ ops := fun h => hno (List.mem_cons_of_mem op h)
      cases op with
      | init => exact absurd rfl hop
      | shutdown => exact ih _ hno' rfl
      | reload spec => exact ih _ hno' hs

/-- A concrete configuration with a schema document path configured. -/
def cfg0 : Config := { openapiBaseSchema := some ['s'], env := "production".toList }

/-- The state of a freshly constructed App under cfg0. -/
def app0 : AppState :=
  { readyState := false, appStages := constructorStages cfg0, dynamicRouter := none }

theorem construct_cfg0 : App.construct cfg0 = Except.ok app0 := rfl

/-- C3 counterexample: on the very instance on which shutdown() was called, the
subsequent operation sequence consisting of a second init() leaves the
readiness flag true again — the code has no guard preventing it, so the flag is
not "never true again after shutdown" under every subsequent sequence. -/
theorem readiness_after_shutdown_counterexample :
    App.construct cfg0 = Except.ok app0 ∧
    (applyOps cfg0 (App.shutdown (App.init cfg0 app0)) [Op.init]).readyState = true :=
  ⟨rfl, rfl⟩

/-- C3 (amended): the readiness flag is created false, set true by init(), set
false by shutdown(), and after shutdown() it stays false under every subsequent
sequence of operations that does not contain another init() call. -/
theorem readiness_lifecycle (cfg : Config) (s s0 : AppState) (ops : List Op)
    (hc : App.construct cfg = Except.ok s0) (hno : Op.init ∉ ops) :
    s0.readyState = false ∧
    (App.init cfg s).readyState = true ∧
    (App.shutdown s).readyState = false ∧
    (applyOps cfg (App.shutdown s) ops).readyState = false := by
  refine ⟨?_, rfl, rfl, readyState_stable_no_init cfg ops (App.shutdown s) hno rfl⟩
  unfold App.construct at hc
  by_cases hcond : ((if cfg.shouldCheckOpenApiBaseSchema = some false then false else true) &&
      !strTruthy cfg.openapiBaseSchema && !optTruthy cfg.openapiSpec) = true
  · rw [if_pos hcond] at hc
    exact absurd hc (by simp)
  · rw [if_neg hcond] at hc
    have := Except.ok.inj hc
    rw [← this]

/-- Witness for C3 (amended) at a concrete configuration and operation
sequence. -/
theorem readiness_lifecycle_witness :
    app0.readyState = false ∧
    (App.init cfg0 app0).readyState = true ∧
    (App.shutdown app0).readyState = false ∧
    (applyOps cfg0 (App.shutdown app0) [Op.shutdown, Op.reload none]).readyState = false :=
  readiness_lifecycle cfg0 app0 app0 [Op.shutdown, Op.reload none] rfl (by simp)

/-- C4 counterexample: after a second init() on the same instance, the one-time
logging stage is registered twice (and once after a single init()), so the
second call does not leave the one-time stage registrations unchanged. -/
theorem init_twice_reregisters_counterexample :
    (App.init cfg0 (App.init cfg0 app0)).appStages.count Stage.logging = 2 ∧
    (App.init cfg0 app0).appStages.count Stage.logging = 1 := by
  constructor <;> rfl

/-- C4 (amended): every call of init(), including a repeated one, appends the
full one-time stage list to the app again in source order — a second init()
re-registers every stage (duplicating them) in addition to rebuilding the
dynamic route table. -/
theorem init_appends_all_stages (cfg : Config) (s : AppState) :
    (App.init cfg s).appStages = s.appStages ++ initStageList ∧
    (App.init cfg s).dynamicRouter =
      some ((if optTruthy cfg.openapiSpec || strTruthy cfg.openapiBaseSchema
             then [DynStage.swaggerUI, DynStage.openApiValidation] else []) ++
        (if optTruthy cfg.openapiSpec || strTruthy cfg.openapiBaseSchema
         then [DynStage.openApiValidation] else [])) := by
  unfold App.init reloadDynamicRouter initStageList
  by_cases hcond : (optTruthy cfg.openapiSpec || strTruthy cfg.openapiBaseSchema) = true
  · simp [hcond]
  · simp [hcond]

/-- C6: when schema validation has not been explicitly disabled, a Config with
both schema sources absent makes construction fail with the configuration
error, and supplying either source (a nonempty schema path or a truthy spec
object) makes construction succeed. -/
theorem construct_schema_check (cfg : Config)
    (hcheck : cfg.shouldCheckOpenApiBaseSchema ≠ some false) :
    (cfg.openapiBaseSchema = none ∧ cfg.openapiSpec = none →
      App.construct cfg = Except.error configErrMsg) ∧
    (strTruthy cfg.openapiBaseSchema = true ∨ optTruthy cfg.openapiSpec = true →
      (App.construct cfg).isOk = true) := by
  have hsc : (if cfg.shouldCheckOpenApiBaseSchema = some false then false else true) = true :=
    if_neg hcheck
  constructor
  · rintro ⟨h1, h2⟩
    unfold App.construct
    rw [hsc, h1, h2]
    rfl
  · intro hsrc
    unfold App.construct
    rw [hsc]
    rcases hsrc with h | h
    · rw [h]
      rfl
    · rw [h]
      cases hbs : strTruthy cfg.openapiBaseSchema <;> rfl

/-- Witness for C6: construction fails on a schema-less config and succeeds on
cfg0, which has a schema document path. -/
theorem construct_schema_check_witness :
    (Config.mk none none [] [] none none none none none).openapiBaseSchema = none ∧
    App.construct (Config.mk none none [] [] none none none none none) =
      Except.error configErrMsg ∧
    (App.construct cfg0).isOk = true :=
  ⟨rfl,
   (construct_schema_check (Config.mk none none [] [] none none none none none)
      (by simp)).1 ⟨rfl, rfl⟩,
   (construct_schema_check cfg0 (by simp [cfg0])).2 (Or.inl (by decide))⟩

/-- One detail entry of a detailed canonical error: target, message, code. -/
structure Detail where
  target : Str
  message : Str
  code : Str
deriving DecidableEq

/-- The canonical error shape of js-node-errors as the terminal handler
consumes it (modelled at the library boundary): message, code, status,
visibility flag, optional stack text, and a details list exactly when the
error is a DetailedError instance. -/
structure ApiError where
  message : Str
  code : Str
  status : Nat
  isPublic : Bool
  stack : Option Str := none
  details : Option (List Detail) := none

/-- The wire body emitted by the terminal error handler; optional fields model
JSON serialization dropping undefined values. -/
structure ErrorBody where
  message : Str
  code : Str
  stack : Option Str
  details : Option (List Detail)
deriving DecidableEq

/-- The fixed replacement message for non-public errors. -/
def genericErrMsg : Str := "An unexpected error has occurred".toList

/-- Outcome of the terminal error handler: forward down the runtime escape path
(next(error)) or write a status and error body. -/
inductive ErrorHandlerResult where
  | forward (error : ApiError)
  | respond (status : Nat) (body : ErrorBody)

/-- Status written by the handler, if it wrote one. -/
def ErrorHandlerResult.statusOf : ErrorHandlerResult → Option Nat
  | .respond st _ => some st
  | .forward _ => none

/-- Body written by the handler, if it wrote one. -/
def ErrorHandlerResult.bodyOf : ErrorHandlerResult → Option ErrorBody
  | .respond _ b => some b
  | .forward _ => none

/-- Embedding of the terminal error handler registered by initErrorHandling
(src/src/index.ts lines 321-341): if the response has already started, forward
the error untouched; otherwise build the wire body — generic message unless
public, stack only in development — adding the details list for DetailedError
instances, and write it with the error's status. -/
def errorHandler (env : Str) (headersSent : Bool) (error : ApiError) : ErrorHandlerResult :=
  if headersSent then .forward error
  else
    let base : ErrorBody :=
      { message := if error.isPublic then error.message else genericErrMsg,
        code := error.code,
        stack := if env = ENV_DEV then error.stack else none,
        details := none }
    match error.details with
    | some ds => .respond error.status { base with details := some ds }
    | none => .respond error.status base

/-- The response the client observes once the terminal handler ran: a respond
outcome writes the error body (the handler only responds when nothing was
sent), a forward outcome leaves whatever was already sent untouched. -/
def observedAfterError (env : Str) (sent : Option (Nat × Json)) (error : ApiError) :
    (Option (Nat × Json) ⊕ Nat × ErrorBody) × Option ApiError :=
  match errorHandler env sent.isSome error with
  | .respond st b => (Sum.inr (st, b), none)
  | .forward err => (Sum.inl sent, some err)

/-- C5: for every canonical error reaching the terminal handler with the
response not yet started, the written status is the error's status and the
written message is the original message verbatim when isPublic is true, and
the fixed generic string when isPublic is false. -/
theorem terminal_handler_visibility (env : Str) (e : ApiError) :
    (errorHandler env false e).statusOf = some e.status ∧
    ((errorHandler env false e).bodyOf).map ErrorBody.message
      = some (if e.isPublic then e.message else genericErrMsg) := by
  unfold errorHandler
  cases e.details <;>
    simp [ErrorHandlerResult.statusOf, ErrorHandlerResult.bodyOf]

/-- C8: when the response has already begun being written, the terminal handler
writes nothing further and forwards the error to the runtime escape path, so
the client-observed response stays exactly what was already sent. -/
theorem headers_sent_escape (env : Str) (st : Nat) (payload : Json) (e : ApiError) :
    errorHandler env true e = ErrorHandlerResult.forward e ∧
    observedAfterError env (some (st, payload)) e
      = (Sum.inl (some (st, payload)), some e) :=
  ⟨rfl, rfl⟩

/-- A canonical detailed error whose details list is empty. -/
def emptyDetailsErr : ApiError :=
  { message := ['m'], code := ['c'], status := 500, isPublic := true,
    stack := none, details := some [] }

/-- C9 counterexample: a DetailedError with an empty details list still makes
the terminal handler emit a details field (an empty array) in the wire body, so
a details field is not emitted only when the details list is non-empty. -/
theorem details_emitted_when_empty_counterexample :
    emptyDetailsErr.details = some [] ∧
    (errorHandler "production".toList false emptyDetailsErr).bodyOf
      = some { message := ['m'], code := ['c'], stack := none,
               details := some ([] : List Detail) } :=
  ⟨rfl, rfl⟩

/-- C9 (amended): the wire body carries a details field exactly when the error
is a DetailedError instance — whatever its details list, possibly empty — and
carries a stack field only when the runtime environment is development. -/
theorem error_body_field_presence (env : Str) (e : ApiError) (st : Nat) (b : ErrorBody)
    (h : errorHandler env false e = ErrorHandlerResult.respond st b) :
    b.details.isSome = e.details.isSome ∧ (b.stack.isSome = true → env = ENV_DEV) := by
  unfold errorHandler at h
  cases hd : e.details <;> rw [hd] at h <;> injection h with h1 h2 <;> rw [← h2] <;>
    refine ⟨by simp [hd], fun hs => ?_⟩ <;>
    · by_cases henv : env = ENV_DEV
      · exact henv
      · rw [if_neg henv] at hs
        simp at hs

/-- Witness for C9 (amended) at a concrete error and environment. -/
theorem error_body_field_presence_witness :
    ({ message := ['m'], code := ['c'], stack := none,
       details := some ([] : List Detail) } : ErrorBody).details.isSome
        = emptyDetailsErr.details.isSome ∧
    (({ message := ['m'], code := ['c'], stack := none,
        details := some ([] : List Detail) } : ErrorBody).stack.isSome = true →
      ['p'] = ENV_DEV) :=
  error_body_field_presence ['p'] emptyDetailsErr 500
    { message := ['m'], code := ['c'], stack := none, details := some [] } rfl

/-- A per-field issue carried by the schema validator's bad-request error. -/
structure ValidatorIssue where
  path : Str
  message : Str
  code : Str

/-- Errors as they enter the error translation chain (src/src/index.ts lines
254-290): the schema validator's error classes, the JWT validator's
unauthorized error, already-canonical errors, and everything else, which this
stage forwards unchanged. -/
inductive MiddlewareError where
  | openApiBadRequest (name : Str) (errors : List ValidatorIssue)
  | openApiUnauthorized (message : Str)
  | jwtUnauthorized (message : Str)
  | openApiNotFound (message : Str)
  | openApiMethodNotAllowed (message : Str)
  | openApiNotAcceptable (message : Str)
  | openApiUnsupportedMediaType (message : Str)
  | canonical (error : ApiError)
  | other (message : Str)

/-- Modelled from the spec: the js-node-errors UnauthorizedError constructor
(the library is an external collaborator, not part of this repository) —
status 401, message passed through and surfaced. -/
def UnauthorizedError (msg : Str) : ApiError :=
  { message := msg, code := "error.unauthorized".toList, status := 401, isPublic := true }

/-- Modelled from the spec: js-node-errors EndpointNotFoundError — status 404. -/
def EndpointNotFoundError (msg : Str) : ApiError :=
  { message := msg, code := "error.endpoint.not-found".toList, status := 404, isPublic := true }

/-- Modelled from the spec: js-node-errors MethodNotAllowedError — status 405. -/
def MethodNotAllowedError (msg : Str) : ApiError :=
  { message := msg, code := "error.method.not-allowed".toList, status := 405, isPublic := true }

/-- Modelled from the spec: js-node-errors NotAcceptableError — status 406. -/
def NotAcceptableError (msg : Str) : ApiError :=
  { message := msg, code := "error.not-acceptable".toList, status := 406, isPublic := true }

/-- Modelled from the spec: js-node-errors UnsupportedMediaTypeError — status 415. -/
def UnsupportedMediaTypeError (msg : Str) : ApiError :=
  { message := msg, code := "error.unsupported-media-type".toList, status := 415,
    isPublic := true }

/-- Embedding of openApiErrorTranslation (src/src/index.ts lines 254-290): the
schema validator's bad request becomes a DetailedError with status 400, code
error.request.invalid and one detail entry per validator issue in order; the
other recognized classes map to their canonical kinds; anything else is
forwarded unchanged. -/
def openApiErrorTranslation : MiddlewareError → MiddlewareError
  | .openApiBadRequest name errors =>
    .canonical
      { message := name, code := "error.request.invalid".toList, status := 400,
        isPublic := true,
        details := some (errors.map (fun item =>
          { target := item.path, message := item.message, code := item.code })) }
  | .openApiUnauthorized msg => .canonical (UnauthorizedError msg)
  | .jwtUnauthorized msg => .canonical (UnauthorizedError msg)
  | .openApiNotFound msg => .canonical (EndpointNotFoundError msg)
  | .openApiMethodNotAllowed msg => .canonical (MethodNotAllowedError msg)
  | .openApiNotAcceptable msg => .canonical (NotAcceptableError msg)
  | .openApiUnsupportedMediaType msg => .canonical (UnsupportedMediaTypeError msg)
  | .canonical e => .canonical e
  | .other msg => .other msg

/-- The canonical error produced by a translation step, if any. -/
def canonicalOf : MiddlewareError → Option ApiError
  | .canonical e => some e
  | _ => none

/-- C7: every schema-validator bad-request error is translated to a canonical
error with status 400, code error.request.invalid, and a details list with one
entry per validator issue, targets taken from the issue paths, in the same
order. -/
theorem openapi_bad_request_translation (name : Str) (issues : List ValidatorIssue) :
    (canonicalOf (openApiErrorTranslation (.openApiBadRequest name issues))).map
        (fun e => (e.status, e.code, e.details))
      = some (400, "error.request.invalid".toList,
          some (issues.map (fun item =>
            ({ target := item.path, message := item.message,
               code := item.code } : Detail)))) := rfl

/-- Key of the inbound envelope field. -/
def dataKey : Str := "data".toList

/-- Key of the decrypted payload inside the envelope. -/
def actualDataKey : Str := "actualData".toList

/-- Key of the correlation token inside the envelope. -/
def randNumKey : Str := "randNum".toList

/-- State of an inbound request as the decoder stage sees it. -/
structure RequestState where
  body : Option Json
  randNum : Option Json := none

/-- Outcome of one middleware run: the request passed to next(), or a thrown
runtime error. -/
inductive StageOutcome where
  | next (request : RequestState)
  | threw (message : Str)

/-- The TypeError message raised by member access on the null sentinel. -/
def typeErrorNullMsg : Str :=
  "Cannot read properties of null (reading actualData)".toList

/-- Decryption of the data field value: crypto-js only accepts string
ciphertext, so a non-string input makes the primitive throw, which decryptData
catches into the null sentinel. -/
def decryptAny (v : Json) (key : Str) : DecResult :=
  match v with
  | .str s => decryptData s key
  | _ => .nullSentinel

/-- Embedding of the decoder stage (src/src/index.ts lines 108-118): when the
request body carries a truthy top-level data field, an encryption key is
configured and the environment is not development, decrypt the data and
replace the body with the decrypted actualData, stashing randNum for the
request; reading actualData of the null sentinel throws a runtime TypeError.
In every other case the request passes through unchanged. -/
def decoder (cfg : Config) (request : RequestState) : StageOutcome :=
  match request.body with
  | none => .next request
  | some b =>
    match b.getField dataKey with
    | none => .next request
    | some d =>
      if b.truthy && d.truthy && strTruthy cfg.encryptionKey
          && (cfg.env != ENV_DEV) then
        match cfg.encryptionKey with
        | some key =>
          match decryptAny d key with
          | .nullSentinel => .threw typeErrorNullMsg
          | .json j =>
            .next { body := j.getField actualDataKey, randNum := j.getField randNumKey }
          | .raw _ => .next { body := none, randNum := none }
        | none => .next request
      else .next request

/-- C10: with an encryption key configured and the environment not development,
a request whose body carries a truthy data field that fails to decrypt (the
null sentinel) makes the decoder stage itself raise a runtime error — reading
actualData of null — instead of passing the body through, so the decryption
failure is not silent at the pipeline level. -/
theorem decoder_raises_on_decrypt_failure (cfg : Config) (request : RequestState)
    (b d : Json) (key : Str)
    (hb : request.body = some b)
    (hd : b.getField dataKey = some d)
    (hbt : b.truthy = true) (hdt : d.truthy = true)
    (hkey : cfg.encryptionKey = some key)
    (hkt : strTruthy cfg.encryptionKey = true)
    (henv : (cfg.env != ENV_DEV) = true)
    (hfail : decryptAny d key = DecResult.nullSentinel) :
    decoder cfg request = StageOutcome.threw typeErrorNullMsg := by
  unfold decoder
  rw [hkey] at hkt
  simp [hb, hd, hbt, hdt, hkt, henv, hkey, hfail]

/-- A concrete configuration with an encryption key, outside development. -/
def cfg10 : Config :=
  { openapiBaseSchema := some ['s'], env := "production".toList,
    encryptionKey := some ['k'] }

/-- A concrete request whose data field was encrypted under a different key. -/
def req10 : RequestState :=
  { body := some (Json.obj [(dataKey, Json.str (encryptData Json.null ['w']))]) }

/-- Witness for C10: the concrete wrong-key envelope makes the decoder throw. -/
theorem decoder_raises_witness :
    decoder cfg10 req10 = StageOutcome.threw typeErrorNullMsg :=
  decoder_raises_on_decrypt_failure cfg10 req10
    (Json.obj [(dataKey, Json.str (encryptData Json.null ['w']))])
    (Json.str (encryptData Json.null ['w'])) ['k']
    rfl rfl rfl rfl rfl rfl rfl rfl
